import Mathlib

/-
Verification development for the content-addressable file cache in
cms/db/filecacher.py: a local on-disk mirror in front of pluggable durable
storage backends (FSBackend, DBBackend, S3Backend, NullBackend).

Shallow embedding: byte sequences are lists of naturals, digests are strings,
directories / buckets / catalogs are association lists keyed by name, and every
FileCacher operation is a pure state-passing function that additionally returns
the list of backend calls it performed (so that "never touches a backend" is a
provable statement about the trace).
-/

namespace FileCacherModel

/-- Byte sequences (file contents). -/
abbrev Bytes := List Nat

/-- Digests: text keys produced by the hash function (cmscommon.digest). -/
abbrev Digest := String

/-- Association-list lookup, first match wins; models a filesystem or
dictionary lookup by name. -/
def alook {α β : Type} [DecidableEq α] (k : α) : List (α × β) → Option β
  | [] => none
  | (k', v) :: rest => if k' = k then some v else alook k rest

/-- Remove every entry with the given key; models os.unlink or a row delete. -/
def aremove {α β : Type} [DecidableEq α] (k : α) : List (α × β) → List (α × β)
  | [] => []
  | (k', v) :: rest =>
    if k' = k then aremove k rest else (k', v) :: aremove k rest

/-- Overwrite the value stored under a key, leaving other entries alone;
models writing into an already created file or large object. -/
def aupdate {α β : Type} [DecidableEq α] (k : α) (v : β) (l : List (α × β)) :
    List (α × β) :=
  l.map (fun p => if p.1 = k then (k, v) else p)

@[simp] theorem alook_nil {α β : Type} [DecidableEq α] (k : α) :
    alook (β := β) k [] = none := rfl

@[simp] theorem alook_cons {α β : Type} [DecidableEq α] (k k' : α) (v : β)
    (l : List (α × β)) :
    alook k ((k', v) :: l) = if k' = k then some v else alook k l := rfl

theorem alook_cons_self {α β : Type} [DecidableEq α] (k : α) (v : β)
    (l : List (α × β)) : alook k ((k, v) :: l) = some v := by
  simp

theorem alook_cons_ne {α β : Type} [DecidableEq α] {k k' : α} (v : β)
    (l : List (α × β)) (h : k' ≠ k) :
    alook k ((k', v) :: l) = alook k l := by
  simp [h]

@[simp] theorem alook_aremove_self {α β : Type} [DecidableEq α] (k : α)
    (l : List (α × β)) : alook k (aremove k l) = none := by
  induction l with
  | nil => rfl
  | cons p rest ih =>
    obtain ⟨k', v⟩ := p
    by_cases h : k' = k
    · simpa [aremove, h] using ih
    · simpa [aremove, h] using ih

theorem alook_aremove_ne {α β : Type} [DecidableEq α] {k k' : α}
    (l : List (α × β)) (h : k ≠ k') :
    alook k (aremove k' l) = alook k l := by
  induction l with
  | nil => rfl
  | cons p rest ih =>
    obtain ⟨k'', v⟩ := p
    by_cases h' : k'' = k'
    · subst h'
      have hne : ¬ k'' = k := fun hk => h (hk ▸ rfl)
      simp [aremove, hne, ih]
    · by_cases hk : k'' = k
      · subst hk
        simp [aremove, h', ih]
      · simp [aremove, h', hk, ih]

theorem alook_isSome_of_mem_keys {α β : Type} [DecidableEq α] {k : α}
    {l : List (α × β)} (h : k ∈ l.map Prod.fst) : (alook k l).isSome := by
  induction l with
  | nil => simp at h
  | cons p rest ih =>
    obtain ⟨k', v⟩ := p
    by_cases hk : k' = k
    · simp [hk]
    · simp only [List.map_cons, List.mem_cons] at h
      rcases h with h | h
      · exact absurd h.symm hk
      · simpa [hk] using ih h

theorem mem_keys_of_alook {α β : Type} [DecidableEq α] {k : α} {v : β}
    {l : List (α × β)} (h : alook k l = some v) : k ∈ l.map Prod.fst := by
  induction l with
  | nil => simp [alook] at h
  | cons p rest ih =>
    obtain ⟨k', v'⟩ := p
    by_cases hk : k' = k
    · simp [hk]
    · simp only [alook_cons, hk, if_false] at h
      simp [ih h]

theorem alook_of_mem_nodup {α β : Type} [DecidableEq α] {k : α} {v : β}
    {l : List (α × β)} (hmem : (k, v) ∈ l) (hnd : (l.map Prod.fst).Nodup) :
    alook k l = some v := by
  induction l with
  | nil => simp at hmem
  | cons p rest ih =>
    obtain ⟨k', v'⟩ := p
    simp only [List.map_cons, List.nodup_cons] at hnd
    rcases List.mem_cons.mp hmem with h | h
    · injection h with h1 h2
      subst h1
      subst h2
      simp
    · have hk : k' ≠ k := by
        intro hk
        subst hk
        exact hnd.1 (by simpa using List.mem_map_of_mem Prod.fst h)
      simp [hk, ih h hnd.2]

/-- Errors a FileCacher call can surface: TombstoneError, KeyError
(file not found), or an OS-level fault on a path that should exist
(unreachable in the flows proved below). -/
inductive Err : Type
  | tombstone
  | notFound
  | ioError
deriving DecidableEq

/-- One backend method invocation; FileCacher operations return the list of
backend calls they performed, so that "never touches a backend" is provable. -/
inductive BCall : Type
  | get (d : Digest)
  | create (d : Digest)
  | commit (d : Digest)
  | describe (d : Digest)
  | size (d : Digest)
  | del (d : Digest)
  | listing
deriving DecidableEq

/-- The FileCacherBackend capability interface. `σ` is the backend state,
`ι` the type of staging handles returned by create_file. `get_file`,
`describe` and `get_size` return `none` where the Python raises KeyError;
`create_file` returns `none` for the handle when the digest is already
stored; `write_file` models the caller streaming content into the handle
between create_file and commit_file. -/
structure Backend (σ ι : Type) where
  get_file : σ → Digest → Option Bytes
  create_file : σ → Digest → Option ι × σ
  write_file : σ → ι → Bytes → σ
  commit_file : σ → ι → Digest → String → Option Bool × σ
  describe : σ → Digest → Option String
  get_size : σ → Digest → Option Nat
  delete : σ → Digest → σ
  listing : σ → List (Digest × String)

/-- FileCacher.TOMBSTONE_DIGEST: the fake digest marking a deleted file. -/
def TOMBSTONE_DIGEST : Digest := "x"

/-- FileCacher.CHUNK_SIZE. -/
def CHUNK_SIZE : Nat := 2 ^ 14

/-- State owned by one FileCacher instance: the local mirror (files in
file_dir named by digest) and the backend state. -/
structure FCState (σ : Type) where
  cache : List (Digest × Bytes)
  backend : σ
deriving DecidableEq

/-- FileCacher.load: raise TombstoneError on the sentinel; short-circuit when
if_needed and the mirror already has the digest; otherwise stream the backend
copy into a scratch temp file and atomically rename it onto the digest-named
mirror path (modelled as replacing the mirror entry). KeyError from the
backend propagates. -/
def fcLoad {σ ι : Type} (B : Backend σ ι) (s : FCState σ) (digest : Digest)
    (if_needed : Bool) : Except Err (FCState σ) × List BCall :=
  if digest = TOMBSTONE_DIGEST then (.error .tombstone, [])
  else if if_needed && (alook digest s.cache).isSome then (.ok s, [])
  else
    match B.get_file s.backend digest with
    | none => (.error .notFound, [.get digest])
    | some content =>
      (.ok ⟨(digest, content) :: aremove digest s.cache, s.backend⟩,
        [.get digest])

/-- FileCacher.get_file: serve from the mirror when present, else load from
the backend first, then open the mirror copy. -/
def fcGetFile {σ ι : Type} (B : Backend σ ι) (s : FCState σ) (digest : Digest) :
    Except Err (Bytes × FCState σ) × List BCall :=
  if digest = TOMBSTONE_DIGEST then (.error .tombstone, [])
  else
    match alook digest s.cache with
    | some c => (.ok (c, s), [])
    | none =>
      match fcLoad B s digest false with
      | (.error e, tr) => (.error e, tr)
      | (.ok s', tr) =>
        match alook digest s'.cache with
        | some c => (.ok (c, s'), tr)
        | none => (.error .ioError, tr)

/-- FileCacher.get_file_content: tombstone check, then get_file and read the
whole file. -/
def fcGetFileContent {σ ι : Type} (B : Backend σ ι) (s : FCState σ)
    (digest : Digest) : Except Err (Bytes × FCState σ) × List BCall :=
  if digest = TOMBSTONE_DIGEST then (.error .tombstone, [])
  else fcGetFile B s digest

/-- FileCacher.save: backend create_file; if it signals "already exists"
(handle is none) return at once, otherwise stream the mirror copy into the
handle and commit_file (whose boolean result is discarded). Reading the
mirror copy fails with an OS error if the mirror lacks the digest. -/
def fcSave {σ ι : Type} (B : Backend σ ι) (s : FCState σ) (digest : Digest)
    (desc : String) : Except Err (FCState σ) × List BCall :=
  if digest = TOMBSTONE_DIGEST then (.error .tombstone, [])
  else
    match B.create_file s.backend digest with
    | (none, σ') => (.ok ⟨s.cache, σ'⟩, [.create digest])
    | (some h, σ') =>
      match alook digest s.cache with
      | none => (.error .ioError, [.create digest])
      | some content =>
        let σ'' := B.write_file σ' h content
        let r := B.commit_file σ'' h digest desc
        (.ok ⟨s.cache, r.2⟩, [.create digest, .commit digest])

/-- FileCacher.put_file_content (via put_file_from_fobj): hash the content
while writing it to a scratch temp file; rename the temp file onto the
digest-named mirror path unless that path already exists (then discard the
temp file and keep the existing mirror entry); unconditionally save to the
backend; return the digest. -/
def fcPutFileContent {σ ι : Type} (B : Backend σ ι) (digestFn : Bytes → Digest)
    (s : FCState σ) (content : Bytes) (desc : String) :
    Except Err (Digest × FCState σ) × List BCall :=
  let digest := digestFn content
  let cache' := if (alook digest s.cache).isSome then s.cache
                else (digest, content) :: s.cache
  match fcSave B ⟨cache', s.backend⟩ digest desc with
  | (.error e, tr) => (.error e, tr)
  | (.ok s', tr) => (.ok (digest, s'), tr)

/-- FileCacher.describe: tombstone check, then delegate to the backend. -/
def fcDescribe {σ ι : Type} (B : Backend σ ι) (s : FCState σ)
    (digest : Digest) : Except Err String × List BCall :=
  if digest = TOMBSTONE_DIGEST then (.error .tombstone, [])
  else
    match B.describe s.backend digest with
    | none => (.error .notFound, [.describe digest])
    | some d => (.ok d, [.describe digest])

/-- FileCacher.get_size: tombstone check, then delegate to the backend. -/
def fcGetSize {σ ι : Type} (B : Backend σ ι) (s : FCState σ)
    (digest : Digest) : Except Err Nat × List BCall :=
  if digest = TOMBSTONE_DIGEST then (.error .tombstone, [])
  else
    match B.get_size s.backend digest with
    | none => (.error .notFound, [.size digest])
    | some n => (.ok n, [.size digest])

/-- FileCacher.drop: silently return on the tombstone, else unlink the mirror
copy only (best effort, never raises). -/
def fcDrop {σ : Type} (s : FCState σ) (digest : Digest) : FCState σ :=
  if digest = TOMBSTONE_DIGEST then s
  else ⟨aremove digest s.cache, s.backend⟩

/-- FileCacher.delete: silently return on the tombstone, else drop the mirror
copy and then delete the backend copy. -/
def fcDelete {σ ι : Type} (B : Backend σ ι) (s : FCState σ) (digest : Digest) :
    FCState σ × List BCall :=
  if digest = TOMBSTONE_DIGEST then (s, [])
  else
    let s' := fcDrop s digest
    (⟨s'.cache, B.delete s'.backend digest⟩, [.del digest])

/-- Loop body of FileCacher.check_backend_integrity over the snapshot list:
for each listed digest re-read the backend copy (an uncaught KeyError aborts
the whole check), recompute its digest, and on mismatch optionally delete the
entry through FileCacher.delete; the clean flag is cleared on mismatch. -/
def checkGo {σ ι : Type} (B : Backend σ ι) (digestFn : Bytes → Digest)
    (doDelete : Bool) :
    List (Digest × String) → Bool → FCState σ → Except Err Bool × FCState σ
  | [], clean, s => (.ok clean, s)
  | (digest, _) :: rest, clean, s =>
    match B.get_file s.backend digest with
    | none => (.error .notFound, s)
    | some content =>
      if digest = digestFn content then checkGo B digestFn doDelete rest clean s
      else
        let s' := if doDelete then (fcDelete B s digest).1 else s
        checkGo B digestFn doDelete rest false s'

/-- FileCacher.check_backend_integrity: fold checkGo over the backend listing
snapshot, starting clean. -/
def fcCheckBackendIntegrity {σ ι : Type} (B : Backend σ ι)
    (digestFn : Bytes → Digest) (s : FCState σ) (doDelete : Bool) :
    Except Err Bool × FCState σ :=
  checkGo B digestFn doDelete (B.listing s.backend) true s

/-- FSBackend state: the backend root directory as an association list of
file name to content, plus a counter supplying fresh temporary file names. -/
structure FSState : Type where
  dir : List (String × Bytes)
  counter : Nat
deriving DecidableEq

/-- FSBackend.get_file: KeyError if the digest-named file is absent, else
open it for reading. -/
def fsGetFile (st : FSState) (digest : Digest) : Option Bytes :=
  alook digest st.dir

/-- FSBackend.create_file: return no handle when the digest-named file
already exists, else create a fresh ".tmp."-named temporary file in the
backend directory and return its name as the handle. -/
def fsCreateFile (st : FSState) (digest : Digest) : Option String × FSState :=
  if (alook digest st.dir).isSome then (none, st)
  else
    let t := ".tmp." ++ toString st.counter ++ digest
    (some t, ⟨(t, []) :: st.dir, st.counter + 1⟩)

/-- The caller writing into the temporary file named by the handle. -/
def fsWriteFile (st : FSState) (t : String) (content : Bytes) : FSState :=
  ⟨aupdate t content st.dir, st.counter⟩

/-- FSBackend.commit_file: close the handle; if the digest-named file does
not exist yet, rename the temporary file into place and return True, else
unlink the temporary file and return False. -/
def fsCommitFile (st : FSState) (t : String) (digest : Digest)
    (_desc : String) : Option Bool × FSState :=
  if (alook digest st.dir).isSome then (some false, ⟨aremove t st.dir, st.counter⟩)
  else
    let c := (alook t st.dir).getD []
    (some true, ⟨(digest, c) :: aremove t st.dir, st.counter⟩)

/-- FSBackend.describe: empty description if the file exists, else KeyError
(descriptions are never persisted by this backend). -/
def fsDescribe (st : FSState) (digest : Digest) : Option String :=
  if (alook digest st.dir).isSome then some "" else none

/-- FSBackend.get_size: file size via stat, KeyError if absent. -/
def fsGetSize (st : FSState) (digest : Digest) : Option Nat :=
  (alook digest st.dir).map List.length

/-- FSBackend.delete: unlink, ignoring absence. -/
def fsDelete (st : FSState) (digest : Digest) : FSState :=
  ⟨aremove digest st.dir, st.counter⟩

/-- FSBackend.list: one pair (name, "") for every directory entry. -/
def fsList (st : FSState) : List (Digest × String) :=
  st.dir.map (fun p => (p.1, ""))

/-- The FSBackend packaged as a Backend. -/
def fsBackend : Backend FSState String :=
  ⟨fsGetFile, fsCreateFile, fsWriteFile, fsCommitFile, fsDescribe, fsGetSize,
    fsDelete, fsList⟩

/-- DBBackend state: the FSObject catalog (digest to description and large
object id) and the large-object store, plus the next fresh large object id. -/
structure DBState : Type where
  catalog : List (Digest × String × Nat)
  lobs : List (Nat × Bytes)
  nextLoid : Nat
deriving DecidableEq

/-- DBBackend.get_file: catalog lookup first (KeyError if absent), then open
the referenced large object. -/
def dbGetFile (st : DBState) (digest : Digest) : Option Bytes :=
  (alook digest st.catalog).map (fun p => (alook p.2 st.lobs).getD [])

/-- DBBackend.create_file: abort (no handle, rollback) when a catalog row for
the digest already exists, else allocate a fresh large object to be populated
before any catalog row mentions it. -/
def dbCreateFile (st : DBState) (digest : Digest) : Option Nat × DBState :=
  if (alook digest st.catalog).isSome then (none, st)
  else
    (some st.nextLoid,
      ⟨st.catalog, (st.nextLoid, []) :: st.lobs, st.nextLoid + 1⟩)

/-- The caller writing content into the allocated large object. -/
def dbWriteFile (st : DBState) (loid : Nat) (content : Bytes) : DBState :=
  ⟨st.catalog, aupdate loid content st.lobs, st.nextLoid⟩

/-- DBBackend.commit_file: insert the catalog row; a uniqueness violation on
the digest (IntegrityError, lost race) is caught, the just-written large
object is unlinked and False is returned; otherwise the row is inserted and
True returned. The commit itself never touches the object content. -/
def dbCommitFile (st : DBState) (loid : Nat) (digest : Digest)
    (desc : String) : Option Bool × DBState :=
  if (alook digest st.catalog).isSome then
    (some false, ⟨st.catalog, aremove loid st.lobs, st.nextLoid⟩)
  else
    (some true, ⟨(digest, desc, loid) :: st.catalog, st.lobs, st.nextLoid⟩)

/-- DBBackend.describe: catalog lookup, KeyError if absent. -/
def dbDescribe (st : DBState) (digest : Digest) : Option String :=
  (alook digest st.catalog).map (fun p => p.1)

/-- DBBackend.get_size: catalog lookup, then seek to the end of the large
object. -/
def dbGetSize (st : DBState) (digest : Digest) : Option Nat :=
  (alook digest st.catalog).map (fun p => ((alook p.2 st.lobs).getD []).length)

/-- DBBackend.delete: silent rollback when the row is absent, else delete the
FSObject row (large-object removal is FSObject.delete's concern, outside this
file). -/
def dbDelete (st : DBState) (digest : Digest) : DBState :=
  ⟨aremove digest st.catalog, st.lobs, st.nextLoid⟩

/-- DBBackend.list: every catalog row as (digest, description). -/
def dbList (st : DBState) : List (Digest × String) :=
  st.catalog.map (fun p => (p.1, p.2.1))

/-- The DBBackend packaged as a Backend. -/
def dbBackend : Backend DBState Nat :=
  ⟨dbGetFile, dbCreateFile, dbWriteFile, dbCommitFile, dbDescribe, dbGetSize,
    dbDelete, dbList⟩

/-- The NullBackend packaged as a Backend: always empty, drops every file;
create_file always signals "already stored", commit_file reports False. -/
def nullBackend : Backend Unit Unit :=
  ⟨fun _ _ => none, fun u _ => (none, u), fun u _ _ => u,
    fun u _ _ _ => (some false, u), fun _ _ => none, fun _ _ => none,
    fun u _ => u, fun _ => []⟩

/-- S3Backend state: the bucket (key to content) and the local staging
temporary files created by create_file, with a counter for fresh handles. -/
structure S3State : Type where
  bucket : List (String × Bytes)
  temps : List (Nat × Bytes)
  counter : Nat
deriving DecidableEq

/-- S3Backend._s3_key: prefix, then the first two digest characters, a slash,
and the digest. -/
def s3Key (pfx : String) (digest : Digest) : String :=
  pfx ++ digest.take 2 ++ "/" ++ digest

/-- S3Backend.get_file: fetch the object under its key; both the plain-URL
path (404) and the API path (NoSuchKey) normalize absence to KeyError. -/
def s3GetFile (pfx : String) (st : S3State) (digest : Digest) : Option Bytes :=
  alook (s3Key pfx digest) st.bucket

/-- S3Backend.create_file: always open a fresh local staging temporary file. -/
def s3CreateFile (st : S3State) (_digest : Digest) : Option Nat × S3State :=
  (some st.counter,
    ⟨st.bucket, (st.counter, []) :: st.temps, st.counter + 1⟩)

/-- The caller writing into the staging temporary file. -/
def s3WriteFile (st : S3State) (t : Nat) (content : Bytes) : S3State :=
  ⟨st.bucket, aupdate t content st.temps, st.counter⟩

/-- S3Backend.commit_file: head_object probe; on hit, unlink the staged
temporary file and hand back Python None; on miss, upload the staged bytes
and fall off the end of the function, which also hands back None. Neither
path produces the booleans the FileCacherBackend contract documents. -/
def s3CommitFile (pfx : String) (st : S3State) (t : Nat) (digest : Digest)
    (_desc : String) : Option Bool × S3State :=
  let key := s3Key pfx digest
  if (alook key st.bucket).isSome then
    (none, ⟨st.bucket, aremove t st.temps, st.counter⟩)
  else
    let c := (alook t st.temps).getD []
    (none, ⟨(key, c) :: st.bucket, aremove t st.temps, st.counter⟩)

/-- S3Backend.describe: head_object probe, KeyError on 404; descriptions are
not stored. -/
def s3Describe (pfx : String) (st : S3State) (digest : Digest) :
    Option String :=
  if (alook (s3Key pfx digest) st.bucket).isSome then some "" else none

/-- S3Backend.get_size: ContentLength from head_object. -/
def s3GetSize (pfx : String) (st : S3State) (digest : Digest) : Option Nat :=
  (alook (s3Key pfx digest) st.bucket).map List.length

/-- S3Backend.delete: delete_object, ignoring absence. -/
def s3Delete (pfx : String) (st : S3State) (digest : Digest) : S3State :=
  ⟨aremove (s3Key pfx digest) st.bucket, st.temps, st.counter⟩

/-- The S3Backend packaged as a Backend (listing omitted here; its faulty
list() is modelled separately below at page granularity). -/
def s3Backend (pfx : String) : Backend S3State Nat :=
  ⟨s3GetFile pfx, s3CreateFile, s3WriteFile, s3CommitFile pfx,
    s3Describe pfx, s3GetSize pfx, s3Delete pfx, fun _ => []⟩

/-- Result of running S3Backend.list: either a value or the TypeError the
interpreter raises. -/
inductive PyListResult : Type
  | ok (l : List (String × String))
  | typeError
deriving DecidableEq

/-- Subscripting a botocore PageIterator, as in pager[key]: a PageIterator
implements no item access, so the interpreter raises TypeError; there is no
value this expression can produce. -/
def pagerGetItem (_pages : List (List String)) (_key : String) :
    Option (List String) := none

/-- The trailing path segment of an object key: key.split on slash, last
element. -/
def trailingSegment (key : String) : String :=
  (key.splitOn "/").getLastD ""

/-- The comprehension inside S3Backend.list: for each page of the paginator
it evaluates pager[Contents] (note: the paginator itself, not the page) and
would map each listed key to (trailing segment, ""). -/
def s3ListGo (pages : List (List String)) :
    List (List String) → PyListResult
  | [] => .ok []
  | _page :: rest =>
    match pagerGetItem pages "Contents" with
    | none => .typeError
    | some contents =>
      match s3ListGo pages rest with
      | .ok tail => .ok (contents.map (fun key => (trailingSegment key, "")) ++ tail)
      | .typeError => .typeError

/-- S3Backend.list over the pages the paginator yields for the bucket. -/
def s3List (pages : List (List String)) : PyListResult :=
  s3ListGo pages pages

/-- Filesystem paths as component lists; files in different directories have
different component lists. -/
abbrev Path := List String

/-- The digest-named mirror path file_dir/digest. -/
def cachePath (fileDir : Path) (digest : Digest) : Path :=
  fileDir ++ [digest]

/-- A scratch temporary path file_dir/_temp/name inside the reserved scratch
subdirectory. -/
def scratchPath (fileDir : Path) (n : Nat) : Path :=
  fileDir ++ ["_temp", toString n]

/-- One filesystem step performed while populating the local mirror. -/
inductive MirrorEvent : Type
  | mkstemp (p : Path)
  | write (p : Path) (chunk : Bytes)
  | rename (src dst : Path)
  | unlink (p : Path)
deriving DecidableEq

/-- Split a byte sequence into the successive CHUNK_SIZE reads the streaming
copy performs. -/
def chunksC (b : Bytes) : List Bytes :=
  if _h : b = [] then []
  else b.take CHUNK_SIZE :: chunksC (b.drop CHUNK_SIZE)
termination_by b.length
decreasing_by
  simp only [List.length_drop]
  have hpos : 0 < b.length := List.length_pos.mpr _h
  have : 0 < CHUNK_SIZE := by decide
  omega

theorem chunksC_nil : chunksC [] = [] := by
  rw [chunksC]
  simp

theorem chunksC_join_aux :
    ∀ (fuel : Nat) (b : Bytes), b.length ≤ fuel → (chunksC b).flatten = b := by
  intro fuel
  induction fuel with
  | zero =>
    intro b hb
    have hb' : b = [] := List.eq_nil_of_length_eq_zero (Nat.le_zero.mp hb)
    subst hb'
    rw [chunksC_nil]
    rfl
  | succ f ih =>
    intro b hb
    by_cases h : b = []
    · subst h
      rw [chunksC_nil]
      rfl
    · rw [chunksC]
      rw [dif_neg h]
      have hlen : (b.drop CHUNK_SIZE).length ≤ f := by
        simp only [List.length_drop]
        have hpos : 0 < b.length := List.length_pos.mpr h
        have hc : 0 < CHUNK_SIZE := by decide
        omega
      simp only [List.flatten_cons, ih (b.drop CHUNK_SIZE) hlen]
      exact List.take_append_drop CHUNK_SIZE b

/-- The CHUNK_SIZE reads written one by one to the temp file reassemble the
complete byte sequence. -/
theorem chunksC_join (b : Bytes) : (chunksC b).flatten = b :=
  chunksC_join_aux b.length b le_rfl

/-- The filesystem steps FileCacher.load performs on the local mirror when it
proceeds to download digest from the backend: mkstemp in the scratch
directory, stream the content into the temp file one chunk at a time, then
atomically rename the temp file onto the digest-named mirror path. -/
def loadEvents (fileDir : Path) (n : Nat) (digest : Digest)
    (content : Bytes) : List MirrorEvent :=
  MirrorEvent.mkstemp (scratchPath fileDir n) ::
    ((chunksC content).map (MirrorEvent.write (scratchPath fileDir n)) ++
      [MirrorEvent.rename (scratchPath fileDir n) (cachePath fileDir digest)])

/-- The filesystem steps FileCacher.put_file_from_fobj performs on the local
mirror: mkstemp in the scratch directory, stream the source into the temp
file one chunk at a time while hashing, then either discard the temp file (if
the digest-named path already exists in the mirror cache) or atomically
rename it onto the digest-named path. -/
def putEvents (fileDir : Path) (n : Nat) (digestFn : Bytes → Digest)
    (cache : List (Digest × Bytes)) (content : Bytes) : List MirrorEvent :=
  let digest := digestFn content
  let t := scratchPath fileDir n
  MirrorEvent.mkstemp t ::
    ((chunksC content).map (MirrorEvent.write t) ++
      (if (alook digest cache).isSome then [MirrorEvent.unlink t]
       else [MirrorEvent.rename t (cachePath fileDir digest)]))

/-- A concrete injective-enough digest function used to instantiate witness
statements (the real hash lives in cmscommon.digest, outside this file). -/
def demoDigest (b : Bytes) : Digest :=
  "h" ++ toString b.length

theorem fcSave_ok {σ ι : Type} (B : Backend σ ι) (s : FCState σ)
    (digest : Digest) (desc : String) (c : Bytes)
    (hT : digest ≠ TOMBSTONE_DIGEST) (hc : alook digest s.cache = some c) :
    ∃ σ' tr, fcSave B s digest desc = (.ok ⟨s.cache, σ'⟩, tr) := by
  simp only [fcSave, if_neg hT]
  rcases hcf : B.create_file s.backend digest with ⟨ho, σ'⟩
  cases ho with
  | none => exact ⟨σ', [.create digest], rfl⟩
  | some h₀ =>
    rw [hc]
    exact ⟨(B.commit_file (B.write_file σ' h₀ c) h₀ digest desc).2,
      [.create digest, .commit digest], rfl⟩

theorem fcGetFileContent_cache_hit {σ ι : Type} (B : Backend σ ι)
    {s : FCState σ} {digest : Digest} {c : Bytes}
    (hT : digest ≠ TOMBSTONE_DIGEST) (hc : alook digest s.cache = some c) :
    fcGetFileContent B s digest = (.ok (c, s), []) := by
  simp [fcGetFileContent, fcGetFile, hT, hc]

theorem fcPut_ok {σ ι : Type} (B : Backend σ ι) (digestFn : Bytes → Digest)
    (s : FCState σ) (content : Bytes) (desc : String)
    (hT : digestFn content ≠ TOMBSTONE_DIGEST)
    (hF : ∀ c', alook (digestFn content) s.cache = some c' → c' = content) :
    ∃ s₁ tr₁,
      fcPutFileContent B digestFn s content desc =
        (.ok (digestFn content, s₁), tr₁) ∧
      alook (digestFn content) s₁.cache = some content := by
  have hlk : alook (digestFn content)
      (if (alook (digestFn content) s.cache).isSome then s.cache
       else (digestFn content, content) :: s.cache) = some content := by
    by_cases hex : (alook (digestFn content) s.cache).isSome
    · rw [if_pos hex]
      obtain ⟨c', hc'⟩ := Option.isSome_iff_exists.mp hex
      rw [hc', hF c' hc']
    · rw [if_neg hex]
      simp
  obtain ⟨σ₁, tr, hsave⟩ := fcSave_ok B
    ⟨if (alook (digestFn content) s.cache).isSome then s.cache
      else (digestFn content, content) :: s.cache, s.backend⟩
    (digestFn content) desc content hT hlk
  refine ⟨⟨if (alook (digestFn content) s.cache).isSome then s.cache
    else (digestFn content, content) :: s.cache, σ₁⟩, tr, ?_, ?_⟩
  · simp only [fcPutFileContent]
    rw [hsave]
  · exact hlk

/-- C1: for every byte sequence B, put_file_content(B) followed by
get_file_content on the returned digest yields bytes identical to B, and a
second put_file_content(B) returns the same digest as the first. Hypotheses:
the digest of B is not the tombstone sentinel, and the mirror is faithful at
that digest (content-addressed store invariant: whatever the mirror already
holds under digest(B) is B itself). -/
theorem c1_put_get_roundtrip {σ ι : Type} (B : Backend σ ι)
    (digestFn : Bytes → Digest) (s : FCState σ) (content : Bytes)
    (desc desc₂ : String)
    (hT : digestFn content ≠ TOMBSTONE_DIGEST)
    (hF : ∀ c', alook (digestFn content) s.cache = some c' → c' = content) :
    ∃ s₁ tr₁ tr₂ s₂ tr₃,
      fcPutFileContent B digestFn s content desc =
        (.ok (digestFn content, s₁), tr₁) ∧
      fcGetFileContent B s₁ (digestFn content) = (.ok (content, s₁), tr₂) ∧
      fcPutFileContent B digestFn s₁ content desc₂ =
        (.ok (digestFn content, s₂), tr₃) := by
  obtain ⟨s₁, tr₁, hput, hlk₁⟩ := fcPut_ok B digestFn s content desc hT hF
  have hF₁ : ∀ c', alook (digestFn content) s₁.cache = some c' → c' = content := by
    intro c' hc'
    rw [hlk₁] at hc'
    exact (Option.some_inj.mp hc').symm
  obtain ⟨s₂, tr₃, hput₂, _⟩ := fcPut_ok B digestFn s₁ content desc₂ hT hF₁
  exact ⟨s₁, tr₁, [], s₂, tr₃, hput,
    fcGetFileContent_cache_hit B hT hlk₁, hput₂⟩

/-- Witness for C1 at a concrete input: the FS backend, an empty mirror and
backend, content [1, 2]. -/
theorem c1_witness :
    ∃ s₁ tr₁ tr₂ s₂ tr₃,
      fcPutFileContent fsBackend demoDigest ⟨[], ⟨[], 0⟩⟩ [1, 2] "a" =
        (.ok (demoDigest [1, 2], s₁), tr₁) ∧
      fcGetFileContent fsBackend s₁ (demoDigest [1, 2]) =
        (.ok ([1, 2], s₁), tr₂) ∧
      fcPutFileContent fsBackend demoDigest s₁ [1, 2] "b" =
        (.ok (demoDigest [1, 2], s₂), tr₃) :=
  c1_put_get_roundtrip fsBackend demoDigest ⟨[], ⟨[], 0⟩⟩ [1, 2] "a" "b"
    (by decide) (fun c' h => Option.noConfusion h)

/-- C3: get_file, describe and get_size on the tombstone sentinel digest
always fail with TombstoneError, never with KeyError, and perform no backend
call before raising (empty backend-call trace), for every backend and every
state. -/
theorem c3_tombstone_never_reaches_backend {σ ι : Type} (B : Backend σ ι)
    (s : FCState σ) :
    fcGetFile B s TOMBSTONE_DIGEST = (.error .tombstone, []) ∧
    fcDescribe B s TOMBSTONE_DIGEST = (.error .tombstone, []) ∧
    fcGetSize B s TOMBSTONE_DIGEST = (.error .tombstone, []) ∧
    Err.tombstone ≠ Err.notFound := by
  exact ⟨rfl, rfl, rfl, by decide⟩

/-- C4: both load and put_file_from_fobj stream the full content chunk by
chunk into a temp file inside the scratch directory and only then rename it
onto the digest-named mirror path: every write event targets the scratch
temp path, the scratch temp path is never a digest-named mirror path, the
chunks written reassemble the complete content, and the digest-named path
appears only as the destination of the final rename (or not at all, when put
discards its temp file). -/
theorem c4_temp_file_then_atomic_rename (fileDir : Path) (n : Nat)
    (digestFn : Bytes → Digest) (cache : List (Digest × Bytes))
    (digest : Digest) (content : Bytes) :
    (chunksC content).flatten = content ∧
    (∀ p ch, MirrorEvent.write p ch ∈ loadEvents fileDir n digest content →
      p = scratchPath fileDir n) ∧
    (∀ p ch, MirrorEvent.write p ch ∈ putEvents fileDir n digestFn cache content →
      p = scratchPath fileDir n) ∧
    (∀ d, scratchPath fileDir n ≠ cachePath fileDir d) ∧
    loadEvents fileDir n digest content =
      MirrorEvent.mkstemp (scratchPath fileDir n) ::
        ((chunksC content).map (MirrorEvent.write (scratchPath fileDir n)) ++
          [MirrorEvent.rename (scratchPath fileDir n) (cachePath fileDir digest)]) ∧
    putEvents fileDir n digestFn cache content =
      MirrorEvent.mkstemp (scratchPath fileDir n) ::
        ((chunksC content).map (MirrorEvent.write (scratchPath fileDir n)) ++
          (if (alook (digestFn content) cache).isSome then
            [MirrorEvent.unlink (scratchPath fileDir n)]
           else
            [MirrorEvent.rename (scratchPath fileDir n)
              (cachePath fileDir (digestFn content))])) := by
  refine ⟨chunksC_join content, ?_, ?_, ?_, rfl, rfl⟩
  · intro p ch h
    simp only [loadEvents, List.mem_cons, List.mem_append, List.mem_map,
      List.mem_singleton, List.not_mem_nil, or_false] at h
    rcases h with h | ⟨a, _, h⟩ | h
    · cases h
    · injection h with h1 _
      exact h1.symm
    · cases h
  · intro p ch h
    simp only [putEvents, List.mem_cons, List.mem_append, List.mem_map] at h
    rcases h with h | ⟨a, _, h⟩ | h
    · cases h
    · injection h with h1 _
      exact h1.symm
    · by_cases hex : (alook (digestFn content) cache).isSome
      · rw [if_pos hex] at h
        simp only [List.mem_singleton] at h
        cases h
      · rw [if_neg hex] at h
        simp only [List.mem_singleton] at h
        cases h
  · intro d h
    have hlen := congrArg List.length h
    simp only [scratchPath, cachePath, List.length_append, List.length_cons,
      List.length_singleton, List.length_nil] at hlen
    omega

/-- Witness for C4 at concrete inputs (no hypotheses to discharge): the join
property at a two-byte content and the scratch/mirror path disjointness. -/
theorem c4_witness :
    (chunksC [1, 2]).flatten = [1, 2] ∧
    scratchPath ["cache"] 0 ≠ cachePath ["cache"] "h2" := by
  have h := c4_temp_file_then_atomic_rename ["cache"] 0 demoDigest [] "h2" [1, 2]
  exact ⟨h.1, h.2.2.2.1 "h2"⟩

/-- C8: delete and drop on the tombstone sentinel return silently, with no
backend call and no change to the local mirror, in contrast to get_file,
describe and get_size, which raise TombstoneError. -/
theorem c8_delete_drop_tombstone_silent {σ ι : Type} (B : Backend σ ι)
    (s : FCState σ) :
    fcDelete B s TOMBSTONE_DIGEST = (s, []) ∧
    fcDrop s TOMBSTONE_DIGEST = s ∧
    fcGetFile B s TOMBSTONE_DIGEST = (.error .tombstone, []) ∧
    fcDescribe B s TOMBSTONE_DIGEST = (.error .tombstone, []) ∧
    fcGetSize B s TOMBSTONE_DIGEST = (.error .tombstone, []) := by
  exact ⟨rfl, rfl, rfl, rfl, rfl⟩

/-- C2 (code bug): the FileCacherBackend contract says commit_file returns
True when the file was newly stored and False when it already existed, and
FSBackend, DBBackend and NullBackend do return those booleans; but
S3Backend.commit_file hands back Python None on both its paths (explicit
return None on the head-object hit, falling off the end after the upload),
so the claim fails for the S3 backend on both the newly-stored and the
already-existing case. -/
theorem c2_s3_commit_file_returns_none :
    (s3CommitFile "" ⟨[], [(0, [1, 2])], 1⟩ 0 "abcd" "").1 = none ∧
    (s3CommitFile "" ⟨[("ab/abcd", [1, 2])], [(0, [1, 2])], 1⟩ 0 "abcd" "").1
      = none ∧
    (none : Option Bool) ≠ some true ∧
    (none : Option Bool) ≠ some false ∧
    (fsCommitFile ⟨[(".tmp.0abcd", [1, 2])], 1⟩ ".tmp.0abcd" "abcd" "").1
      = some true ∧
    (fsCommitFile ⟨[("abcd", [1, 2]), (".tmp.1abcd", [1, 2])], 2⟩
      ".tmp.1abcd" "abcd" "").1 = some false ∧
    (dbCommitFile ⟨[], [(0, [1, 2])], 1⟩ 0 "abcd" "").1 = some true ∧
    (dbCommitFile ⟨[("abcd", "", 0)], [(1, [1, 2])], 2⟩ 1 "abcd" "").1
      = some false ∧
    (nullBackend.commit_file () () "abcd" "").1 = some false := by
  decide

/-- C5: DBBackend.commit_file on a uniqueness violation (the digest already
has a catalog row) catches the IntegrityError, unlinks the large object it
had just written, and returns False instead of raising, leaving the catalog
unchanged; on the success path it inserts the catalog row without touching
any object content; and through FileCacher.save on a fresh digest the
inserted row references the large object only after the full content was
written into it. -/
theorem c5_db_commit_race_unlinks_and_returns_false (st : DBState)
    (loid : Nat) (d : Digest) (desc : String) (s : FCState DBState)
    (b : Bytes) :
    ((alook d st.catalog).isSome →
      dbCommitFile st loid d desc =
        (some false, ⟨st.catalog, aremove loid st.lobs, st.nextLoid⟩) ∧
      alook loid (aremove loid st.lobs) = none) ∧
    (alook d st.catalog = none →
      dbCommitFile st loid d desc =
        (some true, ⟨(d, desc, loid) :: st.catalog, st.lobs, st.nextLoid⟩)) ∧
    (d ≠ TOMBSTONE_DIGEST → alook d s.backend.catalog = none →
      alook d s.cache = some b →
      ∃ s', fcSave dbBackend s d desc = (.ok s', [.create d, .commit d]) ∧
        alook d s'.backend.catalog = some (desc, s.backend.nextLoid) ∧
        alook s.backend.nextLoid s'.backend.lobs = some b) := by
  refine ⟨?_, ?_, ?_⟩
  · intro h
    exact ⟨by simp [dbCommitFile, h], alook_aremove_self loid st.lobs⟩
  · intro h
    simp [dbCommitFile, h]
  · intro hT hfresh hcache
    refine ⟨⟨s.cache,
      ⟨(d, desc, s.backend.nextLoid) :: s.backend.catalog,
        aupdate s.backend.nextLoid b
          ((s.backend.nextLoid, []) :: s.backend.lobs),
        s.backend.nextLoid + 1⟩⟩, ?_, ?_, ?_⟩
    · simp [fcSave, hT, dbBackend, dbCreateFile, dbWriteFile, dbCommitFile,
        hfresh, hcache]
    · simp
    · simp [aupdate]

/-- Witness for C5 at concrete inputs: a lost race over digest a (row
already present, object 1 unlinked, False returned), a clean commit of
digest a, and a full save of digest a into an empty DB backend. -/
theorem c5_witness :
    (dbCommitFile ⟨[("a", "d", 0)], [(1, [5])], 2⟩ 1 "a" "e" =
      (some false, ⟨[("a", "d", 0)], aremove 1 [(1, [5])], 2⟩) ∧
      alook 1 (aremove 1 [(1, [5])]) = none) ∧
    dbCommitFile ⟨[], [], 0⟩ 0 "a" "e" =
      (some true, ⟨[("a", "e", 0)], [], 0⟩) ∧
    ∃ s', fcSave dbBackend ⟨[("a", [9])], ⟨[], [], 0⟩⟩ "a" "e" =
      (.ok s', [.create "a", .commit "a"]) ∧
      alook "a" s'.backend.catalog = some ("e", 0) ∧
      alook 0 s'.backend.lobs = some [9] := by
  refine ⟨?_, ?_, ?_⟩
  · exact (c5_db_commit_race_unlinks_and_returns_false
      ⟨[("a", "d", 0)], [(1, [5])], 2⟩ 1 "a" "e" ⟨[("a", [9])], ⟨[], [], 0⟩⟩
      [9]).1 (by decide)
  · exact (c5_db_commit_race_unlinks_and_returns_false
      ⟨[], [], 0⟩ 0 "a" "e" ⟨[("a", [9])], ⟨[], [], 0⟩⟩ [9]).2.1 (by decide)
  · exact (c5_db_commit_race_unlinks_and_returns_false
      ⟨[], [], 0⟩ 0 "a" "e" ⟨[("a", [9])], ⟨[], [], 0⟩⟩ [9]).2.2
      (by decide) (by decide) (by decide)

/-- C6: for a digest held by both mirror and backend, delete(D) followed by
get(D) fails NotFound; drop(D) alone followed by get(D) still succeeds by
re-fetching the content from the backend; and get fails NotFound only when
the backend copy (and the mirror copy) is absent. -/
theorem c6_delete_vs_drop {σ ι : Type} (B : Backend σ ι) (s : FCState σ)
    (D : Digest) (c : Bytes)
    (hT : D ≠ TOMBSTONE_DIGEST)
    (hdel : B.get_file (B.delete s.backend D) D = none)
    (hB : B.get_file s.backend D = some c) :
    (fcGetFileContent B (fcDelete B s D).1 D).1 = .error .notFound ∧
    (∃ s' tr, fcGetFileContent B (fcDrop s D) D = (.ok (c, s'), tr)) ∧
    (∀ s₂ : FCState σ, B.get_file s₂.backend D = none →
      alook D s₂.cache = none →
      (fcGetFileContent B s₂ D).1 = .error .notFound) := by
  refine ⟨?_, ?_, ?_⟩
  · simp [fcGetFileContent, fcGetFile, fcLoad, fcDelete, fcDrop, hT, hdel]
  · refine ⟨⟨(D, c) :: aremove D (aremove D s.cache), s.backend⟩, [.get D], ?_⟩
    simp [fcGetFileContent, fcGetFile, fcLoad, fcDrop, hT, hB]
  · intro s₂ h1 h2
    simp [fcGetFileContent, fcGetFile, fcLoad, hT, h1, h2]

/-- Witness for C6 at a concrete input: the FS backend holding digest d with
content [7], mirrored locally. -/
theorem c6_witness :
    (fcGetFileContent fsBackend
      (fcDelete fsBackend ⟨[("d", [7])], ⟨[("d", [7])], 0⟩⟩ "d").1 "d").1
      = .error .notFound ∧
    (∃ s' tr, fcGetFileContent fsBackend
      (fcDrop ⟨[("d", [7])], ⟨[("d", [7])], 0⟩⟩ "d") "d" =
        (.ok ([7], s'), tr)) ∧
    (∀ s₂ : FCState FSState, fsBackend.get_file s₂.backend "d" = none →
      alook "d" s₂.cache = none →
      (fcGetFileContent fsBackend s₂ "d").1 = .error .notFound) :=
  c6_delete_vs_drop fsBackend ⟨[("d", [7])], ⟨[("d", [7])], 0⟩⟩ "d" [7]
    (by decide) (by decide) (by decide)

/-- C7 (code bug): S3Backend.list does not enumerate the pages; its
comprehension subscripts the PageIterator itself (pager, not page), which
supports no item access, so the first page evaluation raises TypeError
instead of producing the (trailing path segment, empty description) pairs. -/
theorem c7_s3_list_raises_type_error :
    s3List [["ab/abcdef"]] = PyListResult.typeError ∧
    ∀ l, PyListResult.typeError ≠ PyListResult.ok l := by
  exact ⟨rfl, fun l h => PyListResult.noConfusion h⟩

/-- C10: FSBackend.list returns one pair (name, empty description) for every
directory entry of the backend root, so while a create_file staging handle is
open and uncommitted the listing includes its temporary file name, which
carries the ".tmp." marker and is not the committed digest name. -/
theorem c10_fs_list_shows_staging_temp (st : FSState) (d : Digest)
    (h : alook d st.dir = none) :
    ∃ t, fsCreateFile st d = (some t, ⟨(t, []) :: st.dir, st.counter + 1⟩) ∧
      (t, "") ∈ fsList ⟨(t, []) :: st.dir, st.counter + 1⟩ ∧
      t = ".tmp." ++ toString st.counter ++ d ∧
      t ≠ d ∧
      fsList st = st.dir.map (fun p => (p.1, "")) := by
  refine ⟨".tmp." ++ toString st.counter ++ d, ?_, ?_, rfl, ?_, rfl⟩
  · simp [fsCreateFile, h]
  · simp [fsList]
  · intro he
    have hlen := congrArg String.length he
    rw [String.length_append, String.length_append] at hlen
    have h5 : (".tmp." : String).length = 5 := rfl
    rw [h5] at hlen
    omega

/-- Witness for C10 at a concrete input: an empty backend directory and
digest abc. -/
theorem c10_witness :
    ∃ t, fsCreateFile ⟨[], 0⟩ "abc" = (some t, ⟨(t, []) :: [], 0 + 1⟩) ∧
      (t, "") ∈ fsList ⟨(t, []) :: [], 0 + 1⟩ ∧
      t = ".tmp." ++ toString 0 ++ "abc" ∧
      t ≠ "abc" ∧
      fsList ⟨[], 0⟩ = [] :=
  c10_fs_list_shows_staging_temp ⟨[], 0⟩ "abc" (by decide)

theorem checkGo_fs_spares_tombstone (digestFn : Bytes → Digest) (c : Bytes)
    (hc : digestFn c ≠ TOMBSTONE_DIGEST) :
    ∀ (l : List (Digest × String)) (clean : Bool) (s : FCState FSState),
      (l.map Prod.fst).Nodup →
      (∀ p ∈ l, (alook p.1 s.backend.dir).isSome) →
      alook TOMBSTONE_DIGEST s.backend.dir = some c →
      ∃ b s', checkGo fsBackend digestFn true l clean s = (.ok b, s') ∧
        alook TOMBSTONE_DIGEST s'.backend.dir = some c ∧
        ((clean = false ∨ TOMBSTONE_DIGEST ∈ l.map Prod.fst) → b = false) := by
  intro l
  induction l with
  | nil =>
    intro clean s _ _ hx
    refine ⟨clean, s, rfl, hx, ?_⟩
    rintro (h | h)
    · exact h
    · simp at h
  | cons hd rest ih =>
    obtain ⟨n, dsc⟩ := hd
    intro clean s hnd hIn hx
    have hs : (alook n s.backend.dir).isSome :=
      hIn (n, dsc) (List.mem_cons_self _ _)
    obtain ⟨bc, hbc⟩ := Option.isSome_iff_exists.mp hs
    simp only [List.map_cons, List.nodup_cons] at hnd
    by_cases heq : n = digestFn bc
    · obtain ⟨b, s', hrun, hx', himp⟩ := ih clean s hnd.2
        (fun p hp => hIn p (List.mem_cons_of_mem _ hp)) hx
      refine ⟨b, s', ?_, hx', ?_⟩
      · simp only [checkGo, fsBackend, fsGetFile, hbc, if_pos heq]
        exact hrun
      · rintro (h | h)
        · exact himp (Or.inl h)
        · simp only [List.map_cons, List.mem_cons] at h
          rcases h with h | h
          · exfalso
            rw [← h] at hbc
            rw [hx] at hbc
            apply hc
            have hcbc : c = bc := Option.some_inj.mp hbc
            rw [hcbc, ← heq, ← h]
          · exact himp (Or.inr h)
    · by_cases hn : n = TOMBSTONE_DIGEST
      · obtain ⟨b, s', hrun, hx', himp⟩ := ih false s hnd.2
          (fun p hp => hIn p (List.mem_cons_of_mem _ hp)) hx
        refine ⟨b, s', ?_, hx', fun _ => himp (Or.inl rfl)⟩
        simp only [checkGo, fsBackend, fsGetFile, hbc, if_neg heq]
        simp [fcDelete, hn]
        exact hrun
      · have hdir : ((fcDelete fsBackend s n).1).backend.dir =
            aremove n s.backend.dir := by
          simp [fcDelete, fcDrop, hn, fsBackend, fsDelete]
        obtain ⟨b, s', hrun, hx', himp⟩ := ih false ((fcDelete fsBackend s n).1)
          hnd.2
          (by
            intro p hp
            rw [hdir]
            rw [alook_aremove_ne _ (fun hpe : p.1 = n =>
              hnd.1 (hpe ▸ List.mem_map_of_mem Prod.fst hp))]
            exact hIn p (List.mem_cons_of_mem _ hp))
          (by
            rw [hdir]
            rw [alook_aremove_ne _ (fun hxe : TOMBSTONE_DIGEST = n => hn hxe.symm)]
            exact hx)
        refine ⟨b, s', ?_, hx', fun _ => himp (Or.inl rfl)⟩
        simp only [checkGo, fsBackend, fsGetFile, hbc, if_neg heq]
        exact hrun

/-- C9: check_backend_integrity with delete enabled, on an FS backend whose
directory holds an entry recorded under the tombstone sentinel digest with a
content whose recomputed digest differs, still returns False (not clean) but
does not remove that entry from the backend, because the deletion is routed
through FileCacher.delete, which short-circuits on the tombstone digest. -/
theorem c9_integrity_check_spares_tombstone_entry (digestFn : Bytes → Digest)
    (s : FCState FSState) (c : Bytes)
    (hnd : (s.backend.dir.map Prod.fst).Nodup)
    (hmem : (TOMBSTONE_DIGEST, c) ∈ s.backend.dir)
    (hc : digestFn c ≠ TOMBSTONE_DIGEST) :
    ∃ s', fcCheckBackendIntegrity fsBackend digestFn s true = (.ok false, s') ∧
      alook TOMBSTONE_DIGEST s'.backend.dir = some c := by
  have hx : alook TOMBSTONE_DIGEST s.backend.dir = some c :=
    alook_of_mem_nodup hmem hnd
  have hkeys : (fsList s.backend).map Prod.fst = s.backend.dir.map Prod.fst := by
    simp [fsList, List.map_map]
  obtain ⟨b, s', hrun, hx', himp⟩ := checkGo_fs_spares_tombstone digestFn c hc
    (fsList s.backend) true s
    (by rw [hkeys]; exact hnd)
    (by
      intro p hp
      simp only [fsList, List.mem_map] at hp
      obtain ⟨q, hq, rfl⟩ := hp
      exact alook_isSome_of_mem_keys (List.mem_map_of_mem Prod.fst hq))
    hx
  have hb : b = false :=
    himp (Or.inr (by rw [hkeys]; exact mem_keys_of_alook hx))
  rw [hb] at hrun
  exact ⟨s', hrun, hx'⟩

/-- Witness for C9 at a concrete input: the backend directory holds exactly
one entry, recorded under the tombstone digest with content [1, 2, 3]. -/
theorem c9_witness :
    ∃ s', fcCheckBackendIntegrity fsBackend demoDigest
        ⟨[], ⟨[(TOMBSTONE_DIGEST, [1, 2, 3])], 0⟩⟩ true = (.ok false, s') ∧
      alook TOMBSTONE_DIGEST s'.backend.dir = some [1, 2, 3] :=
  c9_integrity_check_spares_tombstone_entry demoDigest
    ⟨[], ⟨[(TOMBSTONE_DIGEST, [1, 2, 3])], 0⟩⟩ [1, 2, 3]
    (by decide) (by decide) (by decide)

end FileCacherModel
